import Mathlib

/-!
Verification of the insteon PLM core: a shallow embedding of the modem
protocol engine (packet framing, dispatcher routing, send/ack facade) and
the link-database protocol (`Links`, `AddLink`, `RemoveLinks`, `Cleanup`)
from `plm/linkdb.go` and the PLM source file, with theorems settling the
specification's testable properties.

Device-side semantics that live in the `insteon` library package (link
record equality, the group+address-keyed delete-first / modify-first
primitives, the ack/nak status byte) are modelled from the specification
and carry a `Modelled from the spec:` note on their doc comments.
-/

/-- Errors surfaced by the embedded operations, mirroring the sentinel
errors used by the source (`ErrReadTimeout`, `ErrAckTimeout`,
`ErrWriteTimeout`, a generic failed send, and the hard "Failed to add link
back to ALDB" error built in `AddLink`). -/
inductive Err where
  | readTimeout
  | ackTimeout
  | writeTimeout
  | sendFailed
  | addLinkNak
deriving DecidableEq, Repr

/-- A remote link-database record.  Modelled from the spec: "a
controller/responder flag, a group number, a peer address, and auxiliary
data bytes" (the `insteon.LinkRecord` type is not under `src/`). -/
structure LinkRecord where
  controller : Bool
  group : Nat
  address : Nat
  data : List Nat
deriving DecidableEq, Repr

/-- Record equality.  Modelled from the spec: "Equality is defined as:
same group, same address, same direction flag, same data". -/
def LinkRecord.Equal (l1 l2 : LinkRecord) : Bool :=
  l1.group == l2.group && l1.address == l2.address &&
    l1.controller == l2.controller && l1.data == l2.data

/-- A wire frame exchanged with the modem: the command byte, the raw
payload bytes, and the interpretation fields the dispatcher and facade
use.  `src` is the parsed source address carried by device-message
payloads (commands 0x50/0x51); `ackByte` is the trailing
acknowledgement status byte.  Modelled from the spec for the parts of
`Packet` that live outside `src/`: "Acknowledgement/negative-
acknowledgement is encoded as a trailing status byte within the same
command's reply frame". -/
structure Packet where
  command : Nat
  payload : List Nat := []
  src : Option Nat := none
  ackByte : Nat := 0x06
  retryCount : Nat := 0
deriving DecidableEq, Repr

/-- Modelled from the spec: a reply packet is a negative acknowledgement
when its trailing status byte is the NAK byte (0x15). -/
def Packet.NAK (p : Packet) : Bool := p.ackByte == 0x15

/- ## Link-database protocol (`plm/linkdb.go`)

The `LinkDB` methods drive the device through `plm.Send`.  The embedding
threads an explicit environment `DBEnv` holding the device's stored link
table, fault-injection schedules for the successive `Links()` reads,
delete sends and `AddLink` sends (an empty schedule means every such
operation succeeds), and a log of the `AddLink` requests issued. -/

/-- The PLM manage-record sub-commands from `plm/linkdb.go`. -/
def LinkCmdModFirstCtrl : Nat := 0x40

/-- The responder variant of the modify-first sub-command. -/
def LinkCmdModFirstResp : Nat := 0x41

/-- The delete-first sub-command. -/
def LinkCmdDeleteFirst : Nat := 0x80

/-- Environment for the link-database operations: the device's stored
table, per-operation failure schedules, and the log of issued `AddLink`
requests (sub-command and record). -/
structure DBEnv where
  table : List LinkRecord
  readFail : List Bool
  delFail : List Bool
  addNak : List Bool
  addCalls : List (Nat × LinkRecord)
deriving DecidableEq, Repr

/-- One `db.Links()` call as observed by `RemoveLinks`/`Cleanup`:
in a fault-free protocol run it yields the full stored table (paged
find-first/find-next retrieval); the schedule can make a call fail with
the read-timeout error instead. -/
def linksOp (e : DBEnv) : DBEnv × Except Err (List LinkRecord) :=
  match e.readFail with
  | [] => (e, .ok e.table)
  | b :: rest =>
    ({ e with readFail := rest }, if b then .error .readTimeout else .ok e.table)

/-- Modelled from the spec: the device's delete-first primitive removes
the first stored record matching the given group and address ("the
underlying device protocol ... deletes by group+address, not full
content"). -/
def deleteFirst (g a : Nat) : List LinkRecord → List LinkRecord
  | [] => []
  | r :: rs => if r.group = g ∧ r.address = a then rs else r :: deleteFirst g a rs

/-- One delete-first send issued by `RemoveLinks` for `oldLink`: on
success the device drops its first (group, address) match; the schedule
can make the send fail, in which case the table is unchanged. -/
def sendDelete (oldLink : LinkRecord) (e : DBEnv) : DBEnv × Option Err :=
  match e.delFail with
  | [] => ({ e with table := deleteFirst oldLink.group oldLink.address e.table }, none)
  | b :: rest =>
    if b then ({ e with delFail := rest }, some .sendFailed)
    else
      ({ { e with delFail := rest } with
          table := deleteFirst oldLink.group oldLink.address e.table }, none)

/-- The inner delete loop of `RemoveLinks`: issue `n` delete-first sends
for `oldLink`, stopping at the first failed send (the Go `break` out of
the `numDelete` loop). -/
def deleteN (oldLink : LinkRecord) : Nat → DBEnv → DBEnv × Option Err
  | 0, e => (e, none)
  | n + 1, e =>
    match sendDelete oldLink e with
    | (e1, none) => deleteN oldLink n e1
    | (e1, some err) => (e1, some err)

/-- Modelled from the spec: the device's modify-first primitive stores
the record, replacing the first stored record matching its group and
address, or appending it when none matches. -/
def modFirst (r : LinkRecord) : List LinkRecord → List LinkRecord
  | [] => [r]
  | x :: xs => if x.group = r.group ∧ x.address = r.address then r :: xs else x :: modFirst r xs

/-- `LinkDB.AddLink`: choose the controller or responder modify-first
sub-command from the record's own flag, send the manage-record request
(always logged in `addCalls`), and treat a nak reply as the hard
"Failed to add link back to ALDB" error, in which case the table is
unchanged. -/
def AddLink (newLink : LinkRecord) (e : DBEnv) : DBEnv × Option Err :=
  let command := if newLink.controller then LinkCmdModFirstCtrl else LinkCmdModFirstResp
  let e1 := { e with addCalls := e.addCalls ++ [(command, newLink)] }
  match e1.addNak with
  | [] => ({ e1 with table := modFirst newLink e1.table }, none)
  | b :: rest =>
    if b then ({ e1 with addNak := rest }, some .addLinkNak)
    else ({ e1 with addNak := rest, table := modFirst newLink e1.table }, none)

/-- The outer loop of `LinkDB.RemoveLinks`: for each target, re-read the
table; on a read error break out of the whole loop with that error.
Otherwise count the (group, address) matches, collect the matches that
are not content-equal to the target into the supplanted list, and issue
that many delete-first sends.  A failed delete only breaks the inner
delete loop: when further targets remain the outer loop continues and
the error is overwritten by the next read; only on the final target does
it survive into the returned error. -/
def removeLinksLoop : List LinkRecord → List LinkRecord → DBEnv →
    DBEnv × List LinkRecord × Option Err
  | [], deleted, e => (e, deleted, none)
  | oldLink :: rest, deleted, e =>
    match linksOp e with
    | (e1, .error err) => (e1, deleted, some err)
    | (e1, .ok links) =>
      let ms := links.filter fun l => l.group == oldLink.group && l.address == oldLink.address
      let deleted1 := deleted ++ ms.filter fun l => ! oldLink.Equal l
      match deleteN oldLink ms.length e1 with
      | (e2, derr) =>
        match rest with
        | [] => (e2, deleted1, derr)
        | _ :: _ => removeLinksLoop rest deleted1 e2

/-- `LinkDB.RemoveLinks`: run the per-target loop; only when it finishes
with no error, re-add the collected supplanted records via `AddLink`,
discarding each `AddLink` result. -/
def RemoveLinks (oldLinks : List LinkRecord) (e : DBEnv) : DBEnv × Option Err :=
  match removeLinksLoop oldLinks [] e with
  | (e1, deleted, none) => (deleted.foldl (fun acc l => (AddLink l acc).1) e1, none)
  | (e1, _, some err) => (e1, some err)

/-- The pairwise duplicate scan of `LinkDB.Cleanup`: for each record,
every later record content-equal to it is collected for removal. -/
def findDuplicates : List LinkRecord → List LinkRecord
  | [] => []
  | l1 :: rest => rest.filter (fun l2 => l1.Equal l2) ++ findDuplicates rest

/-- `LinkDB.Cleanup`: read the full table, collect the content-equal
duplicates, and hand them to `RemoveLinks`. -/
def Cleanup (e : DBEnv) : DBEnv × Option Err :=
  match linksOp e with
  | (e1, .error err) => (e1, some err)
  | (e1, .ok links) => RemoveLinks (findDuplicates links) e1

/-- Record A of the duplicate-cleanup scenario. -/
def recA : LinkRecord := { controller := true, group := 1, address := 10, data := [1, 2, 3] }

/-- Record A2, a distinct occurrence content-equal to `recA`. -/
def recA2 : LinkRecord := { controller := true, group := 1, address := 10, data := [1, 2, 3] }

/-- Record B, unrelated to the duplicate pair. -/
def recB : LinkRecord := { controller := true, group := 2, address := 20, data := [4] }

/-- Record C, unrelated to the duplicate pair. -/
def recC : LinkRecord := { controller := false, group := 3, address := 30, data := [5] }

/-- The fault-free environment holding the table [A, B, A2, C]. -/
def envC1 : DBEnv :=
  { table := [recA, recB, recA2, recC], readFail := [], delFail := [], addNak := [], addCalls := [] }

/-- A stored record about to be supplanted: same (group, address) as
`recT1` but different data. -/
def recS : LinkRecord := { controller := true, group := 1, address := 5, data := [9] }

/-- The record the caller asks `RemoveLinks` to delete. -/
def recT1 : LinkRecord := { controller := true, group := 1, address := 5, data := [7] }

/-- A second removal target, used to trigger a read error mid-batch. -/
def recT2 : LinkRecord := { controller := true, group := 2, address := 6, data := [1] }

/-- Environment whose second `Links()` read fails: the table holds
`[recS, recT1]` and the read schedule is [succeed, fail]. -/
def envC2 : DBEnv :=
  { table := [recS, recT1], readFail := [false, true], delFail := [], addNak := [], addCalls := [] }

/-- Environment for a fault-free removal whose restoring `AddLink` is
nak'd. -/
def envC10 : DBEnv :=
  { table := [recS, recT1], readFail := [], delFail := [], addNak := [true], addCalls := [] }

/-- The fault-free two-record environment of the remove-with-restore
scenario. -/
def pairEnv (s t : LinkRecord) : DBEnv :=
  { table := [s, t], readFail := [], delFail := [], addNak := [], addCalls := [] }

/-- Claim C1: on the table [A, B, A2, C] with `A.Equal A2`, `Cleanup`
returns no error but deletes BOTH copies of the duplicate: the final
table is [B, C], with neither A nor A2 remaining.  `RemoveLinks`
issues one delete-first per (group, address) match — which also hits the
copy `Cleanup` meant to keep — and restores only records that are not
content-equal to the target, so no copy of the duplicate survives. -/
theorem Cleanup_removes_all_duplicates :
    (Cleanup envC1).1.table = [recB, recC] ∧ (Cleanup envC1).2 = none := by
  constructor <;> rfl

/-- `linksOp` never issues an `AddLink` request. -/
theorem linksOp_addCalls (e : DBEnv) : (linksOp e).1.addCalls = e.addCalls := by
  unfold linksOp
  cases e.readFail <;> rfl

/-- `sendDelete` never issues an `AddLink` request. -/
theorem sendDelete_addCalls (l : LinkRecord) (e : DBEnv) :
    (sendDelete l e).1.addCalls = e.addCalls := by
  unfold sendDelete
  cases e.delFail with
  | nil => rfl
  | cons b rest => cases b <;> rfl

/-- `deleteN` never issues an `AddLink` request. -/
theorem deleteN_addCalls (l : LinkRecord) (n : Nat) (e : DBEnv) :
    (deleteN l n e).1.addCalls = e.addCalls := by
  induction n generalizing e with
  | zero => rfl
  | succ n ih =>
    have hs := sendDelete_addCalls l e
    rcases hsd : sendDelete l e with ⟨e1, r⟩
    rw [hsd] at hs
    unfold deleteN
    rw [hsd]
    cases r with
    | none => exact (ih e1).trans hs
    | some err => exact hs

/-- The removal loop of `RemoveLinks` never issues an `AddLink`
request. -/
theorem removeLinksLoop_addCalls (olds deleted : List LinkRecord) (e : DBEnv) :
    (removeLinksLoop olds deleted e).1.addCalls = e.addCalls := by
  induction olds generalizing deleted e with
  | nil => rfl
  | cons oldLink rest ih =>
    have hl := linksOp_addCalls e
    rcases hlo : linksOp e with ⟨e1, lr⟩
    rw [hlo] at hl
    unfold removeLinksLoop
    rw [hlo]
    cases lr with
    | error err => exact hl
    | ok links =>
      simp only
      have hd := deleteN_addCalls oldLink
        (links.filter fun l => l.group == oldLink.group && l.address == oldLink.address).length e1
      rcases hdn : deleteN oldLink
          (links.filter fun l => l.group == oldLink.group && l.address == oldLink.address).length e1
        with ⟨e2, derr⟩
      rw [hdn] at hd
      rw [hdn]
      cases rest with
      | nil => exact hd.trans hl
      | cons r rs => exact (ih _ e2).trans (hd.trans hl)

/-- Claim C2 (corrected): when any per-record step of `RemoveLinks`
produces the error the call returns, the collected supplanted records
are NOT re-added: no `AddLink` request is issued at all, because the
restoration pass runs only when the loop finished with no error. -/
theorem RemoveLinks_error_skips_restore (oldLinks : List LinkRecord) (e : DBEnv)
    (h : (RemoveLinks oldLinks e).2 ≠ none) :
    (RemoveLinks oldLinks e).1.addCalls = e.addCalls := by
  have hl := removeLinksLoop_addCalls oldLinks [] e
  unfold RemoveLinks at h ⊢
  rcases hlo : removeLinksLoop oldLinks [] e with ⟨e1, deleted, err⟩
  rw [hlo] at h hl
  cases err with
  | none => simp at h
  | some err => exact hl

/-- Claim C2, counterexample to the claim as stated: with stored table
[recS, recT1] (recS supplanted when recT1 is targeted) and the second
table read failing, `RemoveLinks [recT1, recT2]` returns the read error
with recS already deleted, yet issues no `AddLink` request and leaves
recS absent: the already-collected supplanted record is not restored. -/
theorem RemoveLinks_error_drops_restore_cex :
    (RemoveLinks [recT1, recT2] envC2).2 = some Err.readTimeout ∧
    (RemoveLinks [recT1, recT2] envC2).1.addCalls = [] ∧
    recS ∉ (RemoveLinks [recT1, recT2] envC2).1.table := by
  refine ⟨rfl, rfl, ?_⟩
  decide

/-- Witness for `RemoveLinks_error_skips_restore` at the concrete
two-target environment. -/
theorem RemoveLinks_error_skips_restore_witness :
    (RemoveLinks [recT1, recT2] envC2).1.addCalls = envC2.addCalls :=
  RemoveLinks_error_skips_restore [recT1, recT2] envC2 (by decide)

/-- Claim C10: whenever the removal loop itself finishes without error,
`RemoveLinks` returns no error — the results of the restoring `AddLink`
calls are discarded by the fold, so a failed or nak'd restoration is
invisible to the caller. -/
theorem RemoveLinks_ignores_restore_errors (oldLinks : List LinkRecord) (e : DBEnv)
    (h : (removeLinksLoop oldLinks [] e).2.2 = none) :
    (RemoveLinks oldLinks e).2 = none := by
  unfold RemoveLinks
  rcases hlo : removeLinksLoop oldLinks [] e with ⟨e1, deleted, err⟩
  rw [hlo] at h
  simp only at h
  subst h
  rfl

/-- Witness for `RemoveLinks_ignores_restore_errors`: all deletes
succeed, the restoring `AddLink` for recS is nak'd (recS stays absent
from the table), and `RemoveLinks` still reports success. -/
theorem RemoveLinks_ignores_restore_errors_witness :
    (RemoveLinks [recT1] envC10).2 = none ∧
    recS ∉ (RemoveLinks [recT1] envC10).1.table ∧
    (RemoveLinks [recT1] envC10).1.addCalls = [(LinkCmdModFirstCtrl, recS)] :=
  ⟨RemoveLinks_ignores_restore_errors [recT1] envC10 (by decide), by decide, by decide⟩

/-- Claim C3: with a stored table holding exactly the two records s and
t sharing (group, address) but with different data, `RemoveLinks [t]`
returns no error and leaves s present in its original form: s is
deleted by the group+address-keyed delete-first requests and then
restored via `AddLink`. -/
theorem RemoveLinks_restores_supplanted (s t : LinkRecord)
    (hg : s.group = t.group) (ha : s.address = t.address) (hd : s.data ≠ t.data) :
    (RemoveLinks [t] (pairEnv s t)).2 = none ∧
    (RemoveLinks [t] (pairEnv s t)).1.table = [s] := by
  obtain ⟨sc, sg, sa, sd⟩ := s
  obtain ⟨tc, tg, ta, td⟩ := t
  simp only at hg ha hd
  subst hg
  subst ha
  have hdata : (td == sd) = false := beq_eq_false_iff_ne.mpr (Ne.symm hd)
  constructor <;>
    simp [pairEnv, RemoveLinks, removeLinksLoop, linksOp, deleteN, sendDelete,
      deleteFirst, AddLink, modFirst, LinkRecord.Equal, hdata]

/-- Witness for `RemoveLinks_restores_supplanted` at the concrete pair
(recS, recT1). -/
theorem RemoveLinks_restores_supplanted_witness :
    (RemoveLinks [recT1] (pairEnv recS recT1)).2 = none ∧
    (RemoveLinks [recT1] (pairEnv recS recT1)).1.table = [recS] :=
  RemoveLinks_restores_supplanted recS recT1 rfl rfl (by decide)

/- ## Packet codec (`PLM.readPacket`)

The byte stream is a `List Nat`; `readPacket` returns the decode result
together with the bytes left unconsumed.  The command length table
(populated elsewhere in the repository and treated as immutable) is a
parameter `cmdLens`.  `io.ReadAtLeast` is modelled as reading exactly
its minimum byte count, and the out-of-range accesses the Go code can
hit (`buf[5]` when the fixed length is below 4, `ErrShortBuffer` when
the 14-byte extension does not fit in `buf[9:]`) surface as dedicated
error values. -/

/-- Decode failures of `readPacket`. -/
inductive DecodeErr where
  | noSync (b : Nat)
  | unknownCmd (b : Nat)
  | readFailed
  | panicIndex
  | shortBuffer
deriving DecidableEq, Repr

/-- Read exactly `n` bytes from the stream, failing on a short stream. -/
def readN (n : Nat) (s : List Nat) : Option (List Nat × List Nat) :=
  if s.length < n then none else some (s.take n, s.drop n)

/-- Modelled from the spec: `insteon.Flags.IsExtended` tests the
extended-message bit of the message-flags byte. -/
def isExtended (flags : Nat) : Bool := flags.testBit 4

/-- `PLM.readPacket`: expect the 0x02 start-of-frame byte, read the
command byte and look its fixed trailing length up in `cmdLens` (an
unknown command fails with no further bytes consumed), read that many
payload bytes, and when the command is 0x62 and the message-flags byte
at frame offset 5 encodes an extended message, read 14 additional
bytes; finally assemble the packet from the raw bytes (payload
interpretation by `Packet.UnmarshalBinary` lives outside `src/` and is
modelled as carrying the raw bytes). -/
def readPacket (cmdLens : Nat → Option Nat) (s : List Nat) :
    Except DecodeErr Packet × List Nat :=
  match s with
  | [] => (.error .readFailed, [])
  | b0 :: s1 =>
    if b0 ≠ 0x02 then (.error (.noSync b0), s1)
    else
      match s1 with
      | [] => (.error .readFailed, [])
      | cmd :: s2 =>
        match cmdLens cmd with
        | none => (.error (.unknownCmd cmd), s2)
        | some len =>
          match readN len s2 with
          | none => (.error .readFailed, [])
          | some (payload, s3) =>
            if cmd = 0x62 then
              match payload.get? 3 with
              | none => (.error .panicIndex, s3)
              | some flags =>
                if isExtended flags then
                  if len + 7 < 14 then (.error .shortBuffer, s3)
                  else
                    match readN 14 s3 with
                    | none => (.error .readFailed, [])
                    | some (ext, s4) => (.ok { command := cmd, payload := payload ++ ext }, s4)
                else (.ok { command := cmd, payload := payload }, s3)
            else (.ok { command := cmd, payload := payload }, s3)

/-- Claim C6: a frame whose command byte is not a key of the length
table fails to decode with the unknown-command framing error, and the
stream beyond the two header bytes is left untouched. -/
theorem readPacket_unknown_command (cmdLens : Nat → Option Nat) (cmd : Nat)
    (rest : List Nat) (h : cmdLens cmd = none) :
    readPacket cmdLens (0x02 :: cmd :: rest) = (.error (.unknownCmd cmd), rest) := by
  simp [readPacket, h]

/-- Witness for `readPacket_unknown_command` on an empty length table. -/
theorem readPacket_unknown_command_witness :
    readPacket (fun _ => none) (0x02 :: 0x99 :: [1, 2, 3]) =
      (.error (.unknownCmd 0x99), [1, 2, 3]) :=
  readPacket_unknown_command (fun _ => none) 0x99 [1, 2, 3] rfl

/-- Reading exactly the length of the stream's first segment returns
that segment and leaves the tail. -/
theorem readN_append (xs ys : List Nat) : readN xs.length (xs ++ ys) = some (xs, ys) := by
  unfold readN
  rw [if_neg, List.take_left, List.drop_left]
  simp [List.length_append]

/-- Claim C7: for a frame carrying `len` fixed payload bytes followed by
14 further bytes and then `rest`, decoding consumes the 14 additional
bytes exactly when the command is 0x62 and the message-flags byte at
frame offset 5 (payload index 3) encodes an extended message; in every
other case only the fixed `len` bytes are consumed and the 14 bytes
remain in the stream. -/
theorem readPacket_extended_consumption (cmdLens : Nat → Option Nat) (cmd len : Nat)
    (fixed ext rest : List Nat)
    (hlen : cmdLens cmd = some len) (hfix : fixed.length = len) (hext : ext.length = 14)
    (h7 : 7 ≤ len) :
    (readPacket cmdLens (0x02 :: cmd :: (fixed ++ (ext ++ rest)))).2 =
      if cmd = 0x62 ∧ isExtended (fixed.getD 3 0) then rest else ext ++ rest := by
  subst hfix
  have hr1 := readN_append fixed (ext ++ rest)
  have hr2 : readN 14 (ext ++ rest) = some (ext, rest) := by
    rw [← hext]
    exact readN_append ext rest
  have hx3 : (3 : Nat) < fixed.length := by omega
  have hx : fixed[3]? = some fixed[3] := List.getElem?_eq_getElem hx3
  have hgd : fixed.getD 3 0 = fixed[3] := by
    simp [List.getD, hx]
  by_cases hc : cmd = 0x62
  · subst hc
    have hno : ¬ (fixed.length + 7 < 14) := by omega
    by_cases hflags : isExtended fixed[3]
    · simp [readPacket, hlen, hr1, hr2, hx, hgd, hflags, hno]
    · simp [readPacket, hlen, hr1, hx, hgd, hflags]
  · simp [readPacket, hlen, hr1, hc]

/-- The length table of the extended-frame witness: command 0x62 with
seven fixed payload bytes. -/
def cl62 : Nat → Option Nat := fun c => if c = 0x62 then some 7 else none

/-- Fixed payload of the witness frame, with the extended bit set in the
flags byte at payload index 3. -/
def fixedExtPayload : List Nat := [1, 2, 3, 0x10, 4, 5, 6]

/-- The 14 extension bytes of the witness frame. -/
def extBytes : List Nat := [0, 0, 0, 0, 0, 0, 0, 0, 0, 0, 0, 0, 0, 0]

/-- Witness for `readPacket_extended_consumption`: an extended 0x62
frame consumes its 14 extension bytes, leaving exactly the trailing
byte. -/
theorem readPacket_extended_consumption_witness :
    (readPacket cl62 (0x02 :: 0x62 :: (fixedExtPayload ++ (extBytes ++ [9])))).2 = [9] := by
  rw [readPacket_extended_consumption cl62 0x62 7 fixedExtPayload extBytes [9]
    (by decide) (by decide) (by decide) (by decide)]
  decide

/- ## Request/response facade (`PLM.Send`, `PLM.Info`)

`Send` hands the packet plus a fresh one-shot reply channel to the
dispatcher's outbound queue inside a select bounded by the configured
timeout, then waits on the reply channel under the same bound.  The
temporal environment is reified as `SendEnv`: whether the outbound queue
accepted the request within the timeout, and the reply (if any) that
arrived on the fresh reply channel within the timeout. -/

/-- The temporal environment of one `Send` call. -/
structure SendEnv where
  accepted : Bool
  reply : Option Packet
deriving DecidableEq, Repr

/-- `PLM.Send`: if the dispatcher's outbound queue does not accept the
request in time, fail with the write-timeout error; otherwise wait for
the acknowledgement on the fresh reply channel, failing with the
ack-timeout error when none arrives in time. -/
def Send (env : SendEnv) : Option Packet × Option Err :=
  if env.accepted then
    match env.reply with
    | some ack => (some ack, none)
    | none => (none, some .ackTimeout)
  else (none, some .writeTimeout)

/-- Claim C5: `Send` returns the write-timeout error when the outbound
queue does not accept the request in time; otherwise the ack-timeout
error when no reply arrives in time; and the arrived reply with no
error otherwise. -/
theorem Send_timeout_behavior (env : SendEnv) :
    (env.accepted = false → Send env = (none, some Err.writeTimeout)) ∧
    (env.accepted = true → env.reply = none → Send env = (none, some Err.ackTimeout)) ∧
    (∀ a : Packet, env.accepted = true → env.reply = some a → Send env = (some a, none)) := by
  refine ⟨fun h => ?_, fun h1 h2 => ?_, fun a h1 h2 => ?_⟩ <;> simp [Send, *]

/-- An acknowledgement packet used by the facade witnesses. -/
def ackPkt : Packet := { command := 0x60, payload := [1, 2, 3] }

/-- Witness for `Send_timeout_behavior` covering its three branches. -/
theorem Send_timeout_behavior_witness :
    Send { accepted := false, reply := some ackPkt } = (none, some Err.writeTimeout) ∧
    Send { accepted := true, reply := none } = (none, some Err.ackTimeout) ∧
    Send { accepted := true, reply := some ackPkt } = (some ackPkt, none) :=
  ⟨(Send_timeout_behavior { accepted := false, reply := some ackPkt }).1 rfl,
   (Send_timeout_behavior { accepted := true, reply := none }).2.1 rfl rfl,
   (Send_timeout_behavior { accepted := true, reply := some ackPkt }).2.2 ackPkt rfl rfl⟩

/-- Outcome of a `PLM.Info` call: either the payload of the
acknowledgement (the `IMInfo`, modelled by its raw bytes) together with
`Send`'s error value, or the nil-pointer fault of dereferencing a nil
acknowledgement. -/
inductive InfoResult where
  | ok (payload : List Nat) (err : Option Err)
  | nilPointerPanic
deriving DecidableEq, Repr

/-- `PLM.Info`: send the get-info request and unconditionally read the
`Payload` field of the returned acknowledgement — when `Send` returned
no acknowledgement (its error paths), this dereferences a nil pointer. -/
def Info (env : SendEnv) : InfoResult :=
  match Send env with
  | (some ack, err) => .ok ack.payload err
  | (none, _) => .nilPointerPanic

/-- Claim C9: `Info` hits the nil-pointer fault exactly when `Send`
returned no acknowledgement; it completes normally only under the
precondition that `Send` produced a non-nil acknowledgement. -/
theorem Info_nil_fault_iff (env : SendEnv) :
    Info env = InfoResult.nilPointerPanic ↔ (Send env).1 = none := by
  unfold Info
  rcases h : Send env with ⟨ack, err⟩
  cases ack <;> simp

/-- Witness for `Info_nil_fault_iff` at an ack-timeout environment. -/
theorem Info_nil_fault_iff_witness :
    Info { accepted := true, reply := none } = InfoResult.nilPointerPanic :=
  (Info_nil_fault_iff { accepted := true, reply := none }).mpr (by decide)

/- ## Link retrieval protocol (`LinkDB.Links`)

`Links` subscribes to the manage-record-response command (0x57), sends
the get-first request, and then loops over record-response packets,
requesting the next record after each one.  The environment supplies
the result of the first send and the stream of events observed on the
subscription channel; each record event carries the unmarshal outcome of
its payload (the `insteon.LinkRecord` wire format lives outside `src/`)
and the result of the ensuing get-next send. -/

/-- One event observed on the record-response subscription channel. -/
inductive RREvent where
  | record (unmarshalled : Except Err LinkRecord) (nextResp : Packet) (nextErr : Option Err)
  | timeout
deriving Repr

/-- Environment of one `Links()` call: the acknowledgement and error of
the initial get-first send, and the subsequent channel events. -/
structure LinksEnv where
  firstResp : Packet
  firstErr : Option Err
  events : List RREvent

/-- The receive loop of `Links`: a timeout (or an exhausted event
stream) sets the read-timeout error; a record that fails to unmarshal
breaks the loop (the unmarshal error is assigned to a variable
shadowing the outer one, so the loop result carries no error); a record
that unmarshals is appended, and a nak'd or failed get-next send breaks
the loop (again leaving the outer error nil, for the same shadowing
reason). -/
def linksLoop : List RREvent → List LinkRecord → List LinkRecord × Option Err
  | [], links => (links, some Err.readTimeout)
  | RREvent.timeout :: _, links => (links, some Err.readTimeout)
  | RREvent.record u nresp nerr :: rest, links =>
    match u with
    | .error _ => (links, none)
    | .ok link =>
      if nresp.NAK || nerr.isSome then (links ++ [link], none)
      else linksLoop rest (links ++ [link])

/-- `LinkDB.Links`: send the get-first request; a nak'd acknowledgement
clears the error and yields the (empty) collected list; otherwise a
send error is returned as-is, and a clean acknowledgement enters the
receive loop. -/
def Links (env : LinksEnv) : List LinkRecord × Option Err :=
  if env.firstResp.NAK then ([], none)
  else
    match env.firstErr with
    | some err => ([], some err)
    | none => linksLoop env.events []

/-- Claim C4: when the acknowledgement of the initial get-first-all-link
request is a NAK, `Links` returns the empty record list and no error. -/
theorem Links_first_nak_empty (env : LinksEnv) (h : env.firstResp.NAK = true) :
    Links env = ([], none) := by
  simp [Links, h]

/-- Witness for `Links_first_nak_empty` at a concrete nak'd first
acknowledgement. -/
theorem Links_first_nak_empty_witness :
    Links { firstResp := { command := 0x69, ackByte := 0x15 }, firstErr := none,
            events := [RREvent.timeout] } = ([], none) :=
  Links_first_nak_empty _ (by decide)

/- ## Dispatcher inbound routing (`PLM.readWriteLoop`)

The inbound-packet case of the dispatcher's select, as a step function
on the dispatcher's state.  Channels are reified: each registered device
connection is a queue of packets, each ack-correlation entry is either a
nil channel (after being consumed) or a one-slot channel, and the
modem-class channel is the single slot `plmSlot`.  The `dropped` list
records the modem-class packets logged and discarded, and `delivered`
the packets handed to ack waiters. -/

/-- An ack-correlation entry: the nil channel left after a delivered
acknowledgement, or a one-shot channel whose single slot may be full. -/
inductive AckCh where
  | nilCh
  | ch (buf : Option Packet)
deriving DecidableEq, Repr

/-- The dispatcher's mutable state. -/
structure DispatchState where
  connections : List (Nat × List Packet)
  ackChannels : List (Nat × AckCh)
  plmSlot : Option Packet
  dropped : List Packet
  delivered : List Packet
deriving DecidableEq, Repr

/-- Association-list lookup for the dispatcher's keyed tables. -/
def lookupAssoc {α : Type} : List (Nat × α) → Nat → Option α
  | [], _ => none
  | (k, v) :: rest, key => if k = key then some v else lookupAssoc rest key

/-- Replace the value stored under a key of an association list. -/
def setAssoc {α : Type} : List (Nat × α) → Nat → α → List (Nat × α)
  | [], _, _ => []
  | (k, v) :: rest, key, nv =>
    if k = key then (k, nv) :: rest else (k, v) :: setAssoc rest key nv

/-- Append a packet to the queue of the registered device connection. -/
def pushConn : List (Nat × List Packet) → Nat → Packet → List (Nat × List Packet)
  | [], _, _ => []
  | (a, q) :: rest, addr, p =>
    if a = addr then (a, q ++ [p]) :: rest else (a, q) :: pushConn rest addr p

/-- The inbound-packet case of `readWriteLoop`: device messages
(0x50/0x51) are routed by source address to a registered connection (or
dropped); modem-class packets (0x52-0x58) go to the modem channel's
single slot by a non-blocking send, logged and dropped when the slot is
occupied; every other command is an acknowledgement delivered to the
registered waiter when its one-shot channel can take it (the channel is
then closed and the table entry set to the nil channel), and silently
discarded otherwise. -/
def handleInbound (st : DispatchState) (p : Packet) : DispatchState :=
  if p.command = 0x50 ∨ p.command = 0x51 then
    match p.src with
    | some addr =>
      match lookupAssoc st.connections addr with
      | some _ => { st with connections := pushConn st.connections addr p }
      | none => st
    | none => st
  else if 0x52 ≤ p.command ∧ p.command ≤ 0x58 then
    match st.plmSlot with
    | none => { st with plmSlot := some p }
    | some _ => { st with dropped := st.dropped ++ [p] }
  else
    match lookupAssoc st.ackChannels p.command with
    | some (AckCh.ch none) =>
      { st with ackChannels := setAssoc st.ackChannels p.command AckCh.nilCh,
                delivered := st.delivered ++ [p] }
    | _ => st

/-- Claim C8: for a modem-class packet (command 0x52-0x58) the
dispatcher's step is a total, non-blocking state update: when the
single modem-channel slot is free the packet is stored there, and when
it is occupied the packet is merely logged as dropped — no other state
changes, no error arises, and the step always completes so the loop
proceeds. -/
theorem handleInbound_modem_nonblocking (st : DispatchState) (p : Packet)
    (h1 : 0x52 ≤ p.command) (h2 : p.command ≤ 0x58) :
    handleInbound st p =
      (match st.plmSlot with
       | none => { st with plmSlot := some p }
       | some _ => { st with dropped := st.dropped ++ [p] }) := by
  have hno : ¬ (p.command = 0x50 ∨ p.command = 0x51) := by omega
  simp [handleInbound, hno, h1, h2]

/-- A modem-class packet for the dispatcher witness. -/
def pkt53 : Packet := { command := 0x53 }

/-- A dispatcher state whose modem-channel slot is already occupied. -/
def stFull : DispatchState :=
  { connections := [], ackChannels := [], plmSlot := some { command := 0x54 },
    dropped := [], delivered := [] }

/-- Witness for `handleInbound_modem_nonblocking`: with the slot
occupied, the packet is dropped and the rest of the state is
untouched. -/
theorem handleInbound_modem_nonblocking_witness :
    handleInbound stFull pkt53 = { stFull with dropped := [pkt53] } := by
  have h := handleInbound_modem_nonblocking stFull pkt53 (by decide) (by decide)
  simpa [stFull] using h
